import Mathlib

/-!
Shallow embedding of flotilla-os's run-log retrieval subsystem:
the run-log orchestrator (`services/logs.go`, `logService.Logs` /
`logService.LogsText`) and the ECS CloudWatch backend client
(`clients/logs`, `ECSCloudWatchLogsClient`), together with a model of the
external CloudWatch Logs store needed for namespace provisioning.
-/

namespace Flotilla

/-- Lifecycle status of a run (the `state.Status*` constants; the `state`
package itself only compares these for equality here). -/
inductive RunStatus where
  | running
  | stopped
  | queued
  | pending
  | needsRetry
deriving DecidableEq

/-- Executable type tags (`state.ExecutableTypeDefinition` and the other
variant); only equality with the definition tag matters here. -/
inductive ExecutableType where
  | definition
  | template
deriving DecidableEq

/-- Engine tags (`state.ECSEngine`, `state.EKSEngine`). The orchestrator
dereferences `run.Engine` unconditionally, so the embedding keeps it
non-optional. -/
inductive Engine where
  | ecs
  | eks
deriving DecidableEq

/-- The fields of `state.Run` read by the log subsystem. -/
structure Run where
  runID : String
  status : RunStatus
  executableType : Option ExecutableType
  executableID : Option String
  definitionID : String
  engine : Engine
  taskArn : String
deriving DecidableEq

/-- The part of `state.ExecutableResources` used by the backend client. -/
structure ExecutableResources where
  containerName : String
deriving DecidableEq

/-- The `state.Executable` interface, restricted to the two methods the log
subsystem calls: `GetExecutableID` and `GetExecutableResources`. -/
structure Executable where
  executableID : Option String
  resources : ExecutableResources
deriving DecidableEq

/-- Model of a Go `error` value returned by the AWS SDK: whether the
`err.(awserr.Error)` type assertion succeeds, the `aerr.Code()` string,
whether `request.IsErrorThrottle(err)` holds, and the `err.Error()` text. -/
structure AwsErr where
  isAwsErr : Bool
  code : String
  isThrottle : Bool
  errString : String
deriving DecidableEq

/-- The error values the embedded subsystem produces or passes through:
`exceptions.MissingResource`, `errors.Wrap`/`errors.Wrapf` around a backend
error, `errors.Errorf`, and opaque errors from the state manager. -/
inductive Err where
  | missingResource (msg : String)
  | wrapped (msg : String) (cause : AwsErr)
  | errorf (msg : String)
  | state (msg : String)
deriving DecidableEq

/-- AWS constant `cloudwatchlogs.ErrCodeResourceNotFoundException`. -/
def ErrCodeResourceNotFoundException : String := "ResourceNotFoundException"

/-- `cloudwatchlogs.GetLogEventsInput`, the fields the client sets. -/
structure GetLogEventsInput where
  logGroupName : String
  logStreamName : String
  startFromHead : Bool
  nextToken : Option String
deriving DecidableEq

/-- `cloudwatchlogs.OutputLogEvent`: one (timestamp, message) pair. -/
structure OutputLogEvent where
  timestamp : Int
  message : String
deriving DecidableEq

/-- `cloudwatchlogs.GetLogEventsOutput`: the fields the client reads. -/
structure GetLogEventsOutput where
  events : List OutputLogEvent
  nextForwardToken : Option String
deriving DecidableEq

/-- The SDK handle `cwl.logsClient` as used on the fetch path: one call,
`GetLogEvents`, which either fails with an AWS error or succeeds. -/
structure LogsSDK where
  getLogEvents : GetLogEventsInput → Except AwsErr GetLogEventsOutput

/-- `ECSCloudWatchLogsClient`: configuration set at initialization plus the
SDK handle. -/
structure ECSCloudWatchLogsClient where
  logRetentionInDays : Int
  logNamespace : String
  logStreamPrefix : String
  logsClient : LogsSDK

/-- Split a character list at every '/' occurrence, keeping empty segments
(the semantics of Go's `strings.Split` with separator "/"; the empty input
yields one empty segment). -/
def splitOnSlash : List Char → List (List Char)
  | [] => [[]]
  | c :: cs =>
    if c = '/' then [] :: splitOnSlash cs
    else
      match splitOnSlash cs with
      | [] => [[c]]
      | r :: rs => (c :: r) :: rs

/-- Go's `strings.Split(s, "/")` lifted to `String`. -/
def stringSplitOnSlash (s : String) : List String :=
  (splitOnSlash s.data).map (fun cs => String.mk cs)

/-- `ECSCloudWatchLogsClient.toStreamName`: split the run's task ARN on "/",
take the final segment (`arnSplits[len(arnSplits)-1]`), and join
prefix/container/segment with "/" (the `fmt.Sprintf("%s/%s/%s", ...)`). -/
def ECSCloudWatchLogsClient.toStreamName (cwl : ECSCloudWatchLogsClient)
    (executable : Executable) (run : Run) : String :=
  let arnSplits := stringSplitOnSlash run.taskArn
  cwl.logStreamPrefix ++ "/" ++ executable.resources.containerName ++ "/" ++
    arnSplits.getD (arnSplits.length - 1) ""

/-- Insert one event into a list that is already ordered by ascending
timestamp, keeping it ordered. -/
def insertByTimestamp (e : OutputLogEvent) : List OutputLogEvent → List OutputLogEvent
  | [] => [e]
  | x :: xs =>
    if e.timestamp ≤ x.timestamp then e :: x :: xs
    else x :: insertByTimestamp e xs

/-- Modelled from the spec: the comparator type `byTimestamp` is defined in the
repository's `clients/logs` package outside the provided sources; per the spec
(§4.2: "sort ascending by timestamp") `sort.Sort(byTimestamp(events))` is
modelled as an insertion sort ordering events by ascending timestamp. -/
def byTimestampSort : List OutputLogEvent → List OutputLogEvent
  | [] => []
  | x :: xs => insertByTimestamp x (byTimestampSort xs)

/-- `ECSCloudWatchLogsClient.logsToMessage`: sort the events by timestamp,
extract the messages in order, and join them with newline separators. -/
def ECSCloudWatchLogsClient.logsToMessage (events : List OutputLogEvent) : String :=
  let messages := (byTimestampSort events).map (fun event => event.message)
  String.intercalate "\n" messages

/-- The `GetLogEventsInput` that `ECSCloudWatchLogsClient.Logs` builds before
the fetch: group = namespace, stream = computed handle, start from head, and
`NextToken` set only when `lastSeen != nil && len(*lastSeen) > 0`. -/
def ECSCloudWatchLogsClient.getLogEventsArgs (cwl : ECSCloudWatchLogsClient)
    (executable : Executable) (run : Run) (lastSeen : Option String) :
    GetLogEventsInput :=
  let handle := cwl.toStreamName executable run
  let args : GetLogEventsInput :=
    { logGroupName := cwl.logNamespace
      logStreamName := handle
      startFromHead := true
      nextToken := none }
  match lastSeen with
  | some s => if s.length > 0 then { args with nextToken := some s } else args
  | none => args

/-- `ECSCloudWatchLogsClient.Logs`: fetch a page of events since `lastSeen`.
On an AWS error with code ResourceNotFoundException, fail with
`MissingResource`; on a throttle error, swallow it and return the input
cursor; on any other error, wrap it; with zero events return empty text and
the backend's next token; otherwise return the joined sorted messages and the
next token. -/
def ECSCloudWatchLogsClient.Logs (cwl : ECSCloudWatchLogsClient)
    (executable : Executable) (run : Run) (lastSeen : Option String) :
    String × Option String × Option Err :=
  let args := cwl.getLogEventsArgs executable run lastSeen
  match cwl.logsClient.getLogEvents args with
  | Except.error err =>
    if err.isAwsErr && (err.code == ErrCodeResourceNotFoundException) then
      ("", none, some (Err.missingResource err.errString))
    else if err.isAwsErr && err.isThrottle then
      ("", lastSeen, none)
    else
      ("", none, some (Err.wrapped "problem getting logs" err))
  | Except.ok result =>
    if result.events.length == 0 then
      ("", result.nextForwardToken, none)
    else
      (ECSCloudWatchLogsClient.logsToMessage result.events,
        result.nextForwardToken, none)

/-- Opaque stand-in for the `http.ResponseWriter` sink. -/
structure ResponseWriter where
  id : Nat
deriving DecidableEq

/-- `ECSCloudWatchLogsClient.LogsText`: unconditionally returns the
"does not support" error, never writing to the sink. -/
def ECSCloudWatchLogsClient.LogsText (_cwl : ECSCloudWatchLogsClient)
    (_executable : Executable) (_run : Run) (_w : ResponseWriter) : Option Err :=
  some (Err.errorf "ECSCloudWatchLogsClient does not support LogsText method.")

/-- Model of the external CloudWatch Logs store: the log groups that exist and
the retention policies that have been set. -/
structure CWStore where
  groups : List String
  retention : List (String × Int)
deriving DecidableEq

/-- Model of the backend wire call `DescribeLogGroups` with
`LogGroupNamePrefix`: the store returns the groups whose name starts with the
given string. -/
def describeLogGroups (st : CWStore) (pfx : String) : List String :=
  st.groups.filter (fun g => pfx.data.isPrefixOf g.data)

/-- `ECSCloudWatchLogsClient.namespaceExists`: describe groups with the
namespace as prefix; empty result means false, otherwise scan for an exact
name match. -/
def ECSCloudWatchLogsClient.namespaceExists (cwl : ECSCloudWatchLogsClient)
    (st : CWStore) : Bool :=
  let result := describeLogGroups st cwl.logNamespace
  if result.length == 0 then false
  else result.any (fun group => group == cwl.logNamespace)

/-- `ECSCloudWatchLogsClient.createNamespace`: create the log group, then set
its retention policy (both modelled as appends to the store state). -/
def ECSCloudWatchLogsClient.createNamespace (cwl : ECSCloudWatchLogsClient)
    (st : CWStore) : CWStore :=
  let st1 : CWStore := { st with groups := st.groups ++ [cwl.logNamespace] }
  { st1 with retention := st1.retention ++ [(cwl.logNamespace, cwl.logRetentionInDays)] }

/-- `ECSCloudWatchLogsClient.createNamespaceIfNotExists`: check existence,
create only when absent. The Bool records whether a creation was performed. -/
def ECSCloudWatchLogsClient.createNamespaceIfNotExists
    (cwl : ECSCloudWatchLogsClient) (st : CWStore) : CWStore × Bool :=
  if cwl.namespaceExists st then (st, false)
  else (cwl.createNamespace st, true)

/-- The `logs.Client` interface as the orchestrator sees it. -/
structure LogsClientIface where
  logs : Executable → Run → Option String → String × Option String × Option Err
  logsText : Executable → Run → ResponseWriter → Option Err

/-- The `state.Manager` interface as the orchestrator uses it. Go's
`GetExecutableByTypeAndID` returns a descriptor and an error; on error the
descriptor is still a value (the zero value in practice), so the embedding
returns the pair. -/
structure StateManager where
  getRun : String → Except Err Run
  getExecutableByTypeAndID : ExecutableType → String → Executable × Option Err

/-- The two defaulting statements of `logService.Logs`/`LogsText`: a missing
executable type becomes `ExecutableTypeDefinition`, a missing executable id
becomes the run's definition id; the mutated run is used from then on. -/
def Run.withExecutableDefaults (run : Run) : Run :=
  let run1 :=
    match run.executableType with
    | none => { run with executableType := some ExecutableType.definition }
    | some _ => run
  match run1.executableID with
  | none => { run1 with executableID := some run1.definitionID }
  | some _ => run1

/-- `logService.Logs`: load the run, gate on status, default the executable
fields, look up the descriptor, propagate the lookup error when the engine is
ECS, and otherwise delegate to the backend client. The Bool in the result
records whether the backend client was invoked. -/
def logService.Logs (sm : StateManager) (lc : LogsClientIface)
    (runID : String) (lastSeen : Option String) :
    (String × Option String × Option Err) × Bool :=
  match sm.getRun runID with
  | Except.error err => (("", none, some err), false)
  | Except.ok run0 =>
    if run0.status ≠ RunStatus.running ∧ run0.status ≠ RunStatus.stopped then
      (("", none, none), false)
    else
      let run1 := run0.withExecutableDefaults
      let lookup := sm.getExecutableByTypeAndID
        (run1.executableType.getD ExecutableType.definition)
        (run1.executableID.getD run1.definitionID)
      if lookup.2 ≠ none ∧ run1.engine = Engine.ecs then
        (("", none, lookup.2), false)
      else
        (lc.logs lookup.1 run1 lastSeen, true)

/-- `logService.LogsText`: load the run, gate on status, default the
executable fields, look up the descriptor, and delegate to the backend client
(the lookup error is never consulted here). The Bool records whether the
backend client was invoked. -/
def logService.LogsText (sm : StateManager) (lc : LogsClientIface)
    (runID : String) (w : ResponseWriter) : Option Err × Bool :=
  match sm.getRun runID with
  | Except.error err => (some err, false)
  | Except.ok run0 =>
    if run0.status ≠ RunStatus.running ∧ run0.status ≠ RunStatus.stopped then
      (none, false)
    else
      let run1 := run0.withExecutableDefaults
      let lookup := sm.getExecutableByTypeAndID
        (run1.executableType.getD ExecutableType.definition)
        (run1.executableID.getD run1.definitionID)
      (lc.logsText lookup.1 run1 w, true)

/-! Helper lemmas. -/

/-- Ascending-timestamp order on log events. -/
def leByTs (a b : OutputLogEvent) : Prop := a.timestamp ≤ b.timestamp

theorem perm_insertByTimestamp (e : OutputLogEvent) (l : List OutputLogEvent) :
    (insertByTimestamp e l).Perm (e :: l) := by
  induction l with
  | nil => exact List.Perm.refl _
  | cons x xs ih =>
    unfold insertByTimestamp
    by_cases hle : e.timestamp ≤ x.timestamp
    · rw [if_pos hle]
    · rw [if_neg hle]
      exact (ih.cons x).trans (List.Perm.swap e x xs)

theorem byTimestampSort_perm (l : List OutputLogEvent) :
    (byTimestampSort l).Perm l := by
  induction l with
  | nil => exact List.Perm.refl _
  | cons x xs ih => exact (perm_insertByTimestamp x _).trans (ih.cons x)

theorem pairwise_insertByTimestamp (e : OutputLogEvent) (l : List OutputLogEvent)
    (h : l.Pairwise leByTs) : (insertByTimestamp e l).Pairwise leByTs := by
  induction l with
  | nil => simp [insertByTimestamp, leByTs]
  | cons x xs ih =>
    rcases List.pairwise_cons.mp h with ⟨hx, hxs⟩
    unfold insertByTimestamp
    by_cases hle : e.timestamp ≤ x.timestamp
    · rw [if_pos hle]
      refine List.pairwise_cons.mpr ⟨?_, h⟩
      intro y hy
      rcases List.mem_cons.mp hy with hy | hy
      · rw [hy]; exact hle
      · show e.timestamp ≤ y.timestamp
        exact le_trans hle (hx y hy)
    · rw [if_neg hle]
      refine List.pairwise_cons.mpr ⟨?_, ih hxs⟩
      intro y hy
      rcases List.mem_cons.mp ((perm_insertByTimestamp e xs).mem_iff.mp hy) with hy | hy
      · rw [hy]
        show x.timestamp ≤ e.timestamp
        omega
      · exact hx y hy

theorem byTimestampSort_pairwise (l : List OutputLogEvent) :
    (byTimestampSort l).Pairwise leByTs := by
  induction l with
  | nil => simp [byTimestampSort]
  | cons x xs ih => exact pairwise_insertByTimestamp x _ ih

theorem withExecutableDefaults_engine (run : Run) :
    run.withExecutableDefaults.engine = run.engine := by
  obtain ⟨rid, st, et, eid, did, eng, arn⟩ := run
  unfold Run.withExecutableDefaults
  cases et <;> cases eid <;> rfl

theorem withExecutableDefaults_of_none (run : Run)
    (htype : run.executableType = none) (hid : run.executableID = none) :
    run.withExecutableDefaults =
      { run with executableType := some ExecutableType.definition,
                 executableID := some run.definitionID } := by
  obtain ⟨rid, st, et, eid, did, eng, arn⟩ := run
  cases htype; cases hid
  rfl

theorem withExecutableDefaults_of_some (run : Run) (t : ExecutableType) (i : String)
    (htype : run.executableType = some t) (hid : run.executableID = some i) :
    run.withExecutableDefaults = run := by
  obtain ⟨rid, st, et, eid, did, eng, arn⟩ := run
  cases htype; cases hid
  rfl

theorem namespaceExists_of_mem (cwl : ECSCloudWatchLogsClient) (st : CWStore)
    (h : cwl.logNamespace ∈ st.groups) : cwl.namespaceExists st = true := by
  unfold ECSCloudWatchLogsClient.namespaceExists describeLogGroups
  have hmem : cwl.logNamespace ∈
      st.groups.filter (fun g => cwl.logNamespace.data.isPrefixOf g.data) := by
    refine List.mem_filter.mpr ⟨h, ?_⟩
    simp [List.isPrefixOf_iff_prefix]
  have hlen : (st.groups.filter
      (fun g => cwl.logNamespace.data.isPrefixOf g.data)).length ≠ 0 := by
    intro h0
    rw [List.length_eq_zero] at h0
    rw [h0] at hmem
    exact absurd hmem (List.not_mem_nil _)
  simp only [beq_iff_eq]
  rw [if_neg hlen]
  exact List.any_eq_true.mpr ⟨cwl.logNamespace, hmem, by simp⟩

/-! Concrete fixtures used by witnesses and counterexamples. -/

/-- An SDK whose fetch always succeeds with no events and no token. -/
def noopSDK : LogsSDK := ⟨fun _ => Except.ok ⟨[], none⟩⟩

/-- A client configured with namespace "ns" and stream prefix "p". -/
def cwlP : ECSCloudWatchLogsClient := ⟨30, "ns", "p", noopSDK⟩

/-- A concrete executable descriptor with container name "c". -/
def execC : Executable := ⟨some "e1", ⟨"c"⟩⟩

/-- The zero-value executable descriptor Go hands back on a failed lookup. -/
def execEmpty : Executable := ⟨none, ⟨""⟩⟩

/-- A queued run (fails the status gate). -/
def runQueued : Run :=
  ⟨"r1", RunStatus.queued, none, none, "abc", Engine.ecs, "arn:aws:ecs:task/abc123"⟩

/-- A running run with the ARN-style task handle from the spec's example. -/
def runTask : Run :=
  ⟨"r1", RunStatus.running, some ExecutableType.definition, some "abc", "abc",
    Engine.ecs, "arn:aws:ecs:task/abc123"⟩

/-- A running ECS run with explicit executable fields. -/
def runRunningECS : Run :=
  ⟨"r1", RunStatus.running, some ExecutableType.definition, some "abc", "abc",
    Engine.ecs, "arn:aws:ecs:task/abc123"⟩

/-- A backend client whose operations return recognizable constants. -/
def lcConst : LogsClientIface :=
  ⟨fun _ _ _ => ("L", some "tok", none), fun _ _ _ => some (Err.errorf "from-backend")⟩

/-- A state manager serving the queued run and a successful lookup. -/
def smQueued : StateManager :=
  ⟨fun _ => Except.ok runQueued, fun _ _ => (execC, none)⟩

/-- The error produced by the failing executable lookup in the fixtures. -/
def lookupErr : Err := Err.state "lookup failed"

/-- A state manager serving the running ECS run and a failing lookup. -/
def smLookupFail : StateManager :=
  ⟨fun _ => Except.ok runRunningECS, fun _ _ => (execEmpty, some lookupErr)⟩

/-- A concrete AWS throttle error. -/
def throttleErr : AwsErr := ⟨true, "ThrottlingException", true, "throttled"⟩

/-- A client whose fetch is always rejected with the throttle error. -/
def cwlThrottle : ECSCloudWatchLogsClient :=
  ⟨30, "ns", "p", ⟨fun _ => Except.error throttleErr⟩⟩

/-! Claim theorems. -/

/-- C1: for every run whose lifecycle status is neither running nor stopped,
`logService.Logs` returns empty text, a nil cursor and no error without
invoking the backend client, and `logService.LogsText` returns no error
without invoking the backend client. -/
theorem logs_status_gate_skips_backend
    (sm : StateManager) (lc : LogsClientIface) (runID : String)
    (lastSeen : Option String) (w : ResponseWriter) (run : Run)
    (hrun : sm.getRun runID = Except.ok run)
    (h1 : run.status ≠ RunStatus.running) (h2 : run.status ≠ RunStatus.stopped) :
    logService.Logs sm lc runID lastSeen = (("", none, none), false) ∧
    logService.LogsText sm lc runID w = (none, false) := by
  constructor
  · simp [logService.Logs, hrun, h1, h2]
  · simp [logService.LogsText, hrun, h1, h2]

/-- Witness for C1 at the queued-run fixture. -/
theorem logs_status_gate_skips_backend_witness :
    logService.Logs smQueued lcConst "r1" none = (("", none, none), false) ∧
    logService.LogsText smQueued lcConst "r1" ⟨0⟩ = (none, false) :=
  logs_status_gate_skips_backend smQueued lcConst "r1" none ⟨0⟩ runQueued rfl
    (by decide) (by decide)

/-- C2: when the backend fetch fails with a throttling error (an AWS error
satisfying the throttle predicate, whose code is therefore not the
resource-not-found code), `ECSCloudWatchLogsClient.Logs` returns empty text,
the input cursor unchanged, and no error. -/
theorem logs_throttle_returns_cursor_unchanged
    (cwl : ECSCloudWatchLogsClient) (executable : Executable) (run : Run)
    (lastSeen : Option String) (e : AwsErr)
    (haws : e.isAwsErr = true) (hthr : e.isThrottle = true)
    (hcode : e.code ≠ ErrCodeResourceNotFoundException)
    (hsdk : cwl.logsClient.getLogEvents
      (cwl.getLogEventsArgs executable run lastSeen) = Except.error e) :
    cwl.Logs executable run lastSeen = ("", lastSeen, none) := by
  simp only [ECSCloudWatchLogsClient.Logs]
  rw [hsdk]
  simp [haws, hthr, hcode]

/-- Witness for C2 at the always-throttled fixture. -/
theorem logs_throttle_returns_cursor_unchanged_witness :
    cwlThrottle.Logs execC runRunningECS (some "cur") = ("", some "cur", none) :=
  logs_throttle_returns_cursor_unchanged cwlThrottle execC runRunningECS
    (some "cur") throttleErr rfl rfl (by decide) rfl

/-- C10: a present-but-empty cursor is treated exactly like an absent cursor:
the fetch request built by `ECSCloudWatchLogsClient.Logs` is identical in the
two cases, starts from the head of the stream, and carries no continuation
token, so the SDK receives the same request. -/
theorem empty_cursor_like_absent_cursor
    (cwl : ECSCloudWatchLogsClient) (executable : Executable) (run : Run) :
    cwl.getLogEventsArgs executable run (some "") =
      cwl.getLogEventsArgs executable run none ∧
    (cwl.getLogEventsArgs executable run (some "")).nextToken = none ∧
    (cwl.getLogEventsArgs executable run (some "")).startFromHead = true ∧
    cwl.logsClient.getLogEvents (cwl.getLogEventsArgs executable run (some "")) =
      cwl.logsClient.getLogEvents (cwl.getLogEventsArgs executable run none) :=
  ⟨rfl, rfl, rfl, rfl⟩

/-- C3 counterexample: at a running ECS run whose executable lookup fails,
`logService.LogsText` does not return the lookup error and does invoke the
backend client, contradicting the claim that both operations propagate the
lookup error for the ECS engine without invoking the backend. -/
theorem logsText_ignores_lookup_error_counterexample :
    smLookupFail.getRun "r1" = Except.ok runRunningECS ∧
    runRunningECS.engine = Engine.ecs ∧
    runRunningECS.status = RunStatus.running ∧
    (smLookupFail.getExecutableByTypeAndID ExecutableType.definition "abc").2 =
      some lookupErr ∧
    logService.LogsText smLookupFail lcConst "r1" ⟨0⟩ =
      (some (Err.errorf "from-backend"), true) ∧
    logService.LogsText smLookupFail lcConst "r1" ⟨0⟩ ≠ (some lookupErr, false) := by
  refine ⟨rfl, rfl, rfl, rfl, ?_, ?_⟩ <;> decide

/-- C3 amended: in `logService.Logs`, a failed executable lookup on an ECS-engine
run returns the lookup error without invoking the backend, and on any other
engine the (possibly empty) descriptor is passed through to the backend; in
`logService.LogsText` the lookup failure is tolerated for every engine and the
descriptor is passed through to the backend client. -/
theorem logs_lookup_error_engine_policy
    (sm : StateManager) (lc : LogsClientIface) (runID : String)
    (lastSeen : Option String) (w : ResponseWriter)
    (run0 : Run) (ex : Executable) (e : Err)
    (hrun : sm.getRun runID = Except.ok run0)
    (hgate : run0.status = RunStatus.running ∨ run0.status = RunStatus.stopped)
    (hlook : sm.getExecutableByTypeAndID
      (run0.withExecutableDefaults.executableType.getD ExecutableType.definition)
      (run0.withExecutableDefaults.executableID.getD
        run0.withExecutableDefaults.definitionID) = (ex, some e)) :
    (run0.engine = Engine.ecs →
      logService.Logs sm lc runID lastSeen = (("", none, some e), false)) ∧
    (run0.engine ≠ Engine.ecs →
      logService.Logs sm lc runID lastSeen =
        (lc.logs ex run0.withExecutableDefaults lastSeen, true)) ∧
    logService.LogsText sm lc runID w =
      (lc.logsText ex run0.withExecutableDefaults w, true) := by
  have hg : ¬(run0.status ≠ RunStatus.running ∧ run0.status ≠ RunStatus.stopped) := by
    rcases hgate with h | h <;> simp [h]
  have heng := withExecutableDefaults_engine run0
  refine ⟨?_, ?_, ?_⟩
  · intro hecs
    simp only [logService.Logs, hrun]
    rw [if_neg hg]
    simp only [hlook]
    rw [if_pos ⟨by simp, by rw [heng, hecs]⟩]
  · intro hecs
    simp only [logService.Logs, hrun]
    rw [if_neg hg]
    simp only [hlook]
    rw [if_neg (by rw [heng]; exact fun hc => hecs hc.2)]
  · simp only [logService.LogsText, hrun]
    rw [if_neg hg]
    simp only [hlook]

/-- Witness for the amended C3 at the failing-lookup ECS fixture. -/
theorem logs_lookup_error_engine_policy_witness :
    (runRunningECS.engine = Engine.ecs →
      logService.Logs smLookupFail lcConst "r1" none =
        (("", none, some lookupErr), false)) ∧
    (runRunningECS.engine ≠ Engine.ecs →
      logService.Logs smLookupFail lcConst "r1" none =
        (lcConst.logs execEmpty runRunningECS.withExecutableDefaults none, true)) ∧
    logService.LogsText smLookupFail lcConst "r1" ⟨0⟩ =
      (lcConst.logsText execEmpty runRunningECS.withExecutableDefaults ⟨0⟩, true) :=
  logs_lookup_error_engine_policy smLookupFail lcConst "r1" none ⟨0⟩
    runRunningECS execEmpty lookupErr rfl (Or.inl rfl) rfl

/-- C4: `ECSCloudWatchLogsClient.logsToMessage` returns the event messages in
ascending-timestamp order joined with newline separators, for every non-empty
event list and regardless of delivery order (the output is the join of a
timestamp-sorted permutation of the input); in particular, timestamps
[3, 1, 2] with messages ["c", "a", "b"] yield "a\nb\nc". -/
theorem logs_messages_sorted_by_timestamp
    (events : List OutputLogEvent) (_hne : events ≠ []) :
    (∃ sorted : List OutputLogEvent,
      sorted.Perm events ∧
      sorted.Pairwise leByTs ∧
      ECSCloudWatchLogsClient.logsToMessage events =
        String.intercalate "\n" (sorted.map (fun event => event.message))) ∧
    ECSCloudWatchLogsClient.logsToMessage
      [⟨3, "c"⟩, ⟨1, "a"⟩, ⟨2, "b"⟩] = "a\nb\nc" := by
  refine ⟨⟨byTimestampSort events, byTimestampSort_perm events,
    byTimestampSort_pairwise events, rfl⟩, by decide⟩

/-- Witness for C4 at the three-event list from the claim. -/
theorem logs_messages_sorted_by_timestamp_witness :
    (∃ sorted : List OutputLogEvent,
      sorted.Perm [⟨3, "c"⟩, ⟨1, "a"⟩, ⟨2, "b"⟩] ∧
      sorted.Pairwise leByTs ∧
      ECSCloudWatchLogsClient.logsToMessage [⟨3, "c"⟩, ⟨1, "a"⟩, ⟨2, "b"⟩] =
        String.intercalate "\n" (sorted.map (fun event => event.message))) ∧
    ECSCloudWatchLogsClient.logsToMessage
      [⟨3, "c"⟩, ⟨1, "a"⟩, ⟨2, "b"⟩] = "a\nb\nc" :=
  logs_messages_sorted_by_timestamp [⟨3, "c"⟩, ⟨1, "a"⟩, ⟨2, "b"⟩] (by decide)

/-- C5: the stream handle computed by `ECSCloudWatchLogsClient.toStreamName`
is the configured stream prefix, the executable's container name, and the
final "/"-separated segment of the run's task handle, joined with "/"; at
prefix "p", container "c" and task handle "arn:aws:ecs:task/abc123" it is
"p/c/abc123". -/
theorem stream_handle_shape
    (cwl : ECSCloudWatchLogsClient) (executable : Executable) (run : Run)
    (seg : String) (hseg : (stringSplitOnSlash run.taskArn).getLast? = some seg) :
    cwl.toStreamName executable run =
      cwl.logStreamPrefix ++ "/" ++ executable.resources.containerName ++ "/" ++ seg ∧
    ECSCloudWatchLogsClient.toStreamName cwlP execC runTask = "p/c/abc123" := by
  constructor
  · have h2 : (stringSplitOnSlash run.taskArn)[(stringSplitOnSlash run.taskArn).length - 1]? =
        some seg := by
      rw [← List.getLast?_eq_getElem?]
      exact hseg
    simp only [ECSCloudWatchLogsClient.toStreamName]
    rw [List.getD_eq_getElem?_getD, h2]
    rfl
  · rfl

/-- Witness for C5 at the task handle from the claim. -/
theorem stream_handle_shape_witness :
    ECSCloudWatchLogsClient.toStreamName cwlP execC runTask =
      cwlP.logStreamPrefix ++ "/" ++ execC.resources.containerName ++ "/" ++ "abc123" ∧
    ECSCloudWatchLogsClient.toStreamName cwlP execC runTask = "p/c/abc123" :=
  stream_handle_shape cwlP execC runTask "abc123" (by decide)

/-- C6: for every run that passes the status gate, the orchestrator defaults a
missing executable type to the definition type and a missing executable id to
the run's definition identifier before the lookup, so a run with both fields
unset behaves identically (in both `Logs` and `LogsText`) to the run with
those fields set explicitly. -/
theorem executable_defaults_resolve_same
    (sm sm2 : StateManager) (lc : LogsClientIface) (runID : String)
    (lastSeen : Option String) (w : ResponseWriter) (run run2 : Run)
    (hrun : sm.getRun runID = Except.ok run)
    (htype : run.executableType = none) (hid : run.executableID = none)
    (hgate : run.status = RunStatus.running ∨ run.status = RunStatus.stopped)
    (hrun2eq : run2 = { run with executableType := some ExecutableType.definition,
                                 executableID := some run.definitionID })
    (hrun2 : sm2.getRun runID = Except.ok run2)
    (hexec : sm2.getExecutableByTypeAndID = sm.getExecutableByTypeAndID) :
    run.withExecutableDefaults.executableType = some ExecutableType.definition ∧
    run.withExecutableDefaults.executableID = some run.definitionID ∧
    run.withExecutableDefaults = run2 ∧
    logService.Logs sm lc runID lastSeen = logService.Logs sm2 lc runID lastSeen ∧
    logService.LogsText sm lc runID w = logService.LogsText sm2 lc runID w := by
  have hdef : run.withExecutableDefaults = run2 := by
    rw [hrun2eq]; exact withExecutableDefaults_of_none run htype hid
  have hdef2 : run2.withExecutableDefaults = run2 := by
    rw [hrun2eq]
    exact withExecutableDefaults_of_some _ ExecutableType.definition run.definitionID rfl rfl
  have hst : run2.status = run.status := by rw [hrun2eq]
  have hg : ¬(run.status ≠ RunStatus.running ∧ run.status ≠ RunStatus.stopped) := by
    rcases hgate with h | h <;> simp [h]
  have hg2 : ¬(run2.status ≠ RunStatus.running ∧ run2.status ≠ RunStatus.stopped) := by
    rw [hst]; exact hg
  refine ⟨by rw [hdef, hrun2eq], by rw [hdef, hrun2eq], hdef, ?_, ?_⟩
  · simp only [logService.Logs, hrun, hrun2]
    rw [if_neg hg, if_neg hg2]
    rw [hdef, hdef2, hexec]
  · simp only [logService.LogsText, hrun, hrun2]
    rw [if_neg hg, if_neg hg2]
    rw [hdef, hdef2, hexec]

/-- The run with unset executable fields served by `smUnset`. -/
def runUnset : Run :=
  ⟨"r1", RunStatus.running, none, none, "abc", Engine.ecs, "arn:aws:ecs:task/abc123"⟩

/-- A state manager serving a running run with unset executable fields. -/
def smUnset : StateManager :=
  ⟨fun _ => Except.ok runUnset, fun _ i => (⟨some i, ⟨"c"⟩⟩, none)⟩

/-- A state manager serving the same run with explicit executable fields. -/
def smExplicit : StateManager :=
  ⟨fun _ => Except.ok runTask, fun _ i => (⟨some i, ⟨"c"⟩⟩, none)⟩

/-- Witness for C6 with definition identifier "abc". -/
theorem executable_defaults_resolve_same_witness :
    runUnset.withExecutableDefaults.executableType =
      some ExecutableType.definition ∧
    runUnset.withExecutableDefaults.executableID = some runUnset.definitionID ∧
    runUnset.withExecutableDefaults = runTask ∧
    logService.Logs smUnset lcConst "r1" none =
      logService.Logs smExplicit lcConst "r1" none ∧
    logService.LogsText smUnset lcConst "r1" ⟨0⟩ =
      logService.LogsText smExplicit lcConst "r1" ⟨0⟩ :=
  executable_defaults_resolve_same smUnset smExplicit lcConst "r1" none ⟨0⟩
    runUnset runTask rfl rfl rfl (Or.inl rfl) (by decide) rfl rfl

/-- C7: when the backend fetch succeeds with zero events,
`ECSCloudWatchLogsClient.Logs` returns empty text, the next token supplied by
the backend response, and no error. -/
theorem logs_zero_events_not_error
    (cwl : ECSCloudWatchLogsClient) (executable : Executable) (run : Run)
    (lastSeen : Option String) (out : GetLogEventsOutput)
    (hsdk : cwl.logsClient.getLogEvents
      (cwl.getLogEventsArgs executable run lastSeen) = Except.ok out)
    (hempty : out.events = []) :
    cwl.Logs executable run lastSeen = ("", out.nextForwardToken, none) := by
  simp only [ECSCloudWatchLogsClient.Logs]
  rw [hsdk]
  simp [hempty]

/-- An SDK that succeeds with zero events and echoes the request token back. -/
def cwlEcho : ECSCloudWatchLogsClient :=
  ⟨30, "ns", "p", ⟨fun args => Except.ok ⟨[], args.nextToken⟩⟩⟩

/-- Witness for C7 where the backend-supplied next token equals the input
cursor. -/
theorem logs_zero_events_not_error_witness :
    cwlEcho.Logs execC runTask (some "cur") = ("", some "cur", none) :=
  logs_zero_events_not_error cwlEcho execC runTask (some "cur")
    ⟨[], some "cur"⟩ rfl rfl

/-- C8: a backend fetch failing with a resource-not-found AWS error makes
`ECSCloudWatchLogsClient.Logs` return a MissingResource-classified error
(distinct, as a constructor, from the generic wrapped failure), and
`ECSCloudWatchLogsClient.LogsText` always returns the explicit "not
supported" error, never a silent success. -/
theorem logs_missing_resource_and_logsText_unsupported
    (cwl : ECSCloudWatchLogsClient) (executable : Executable) (run : Run)
    (lastSeen : Option String) (e : AwsErr)
    (haws : e.isAwsErr = true) (hcode : e.code = ErrCodeResourceNotFoundException)
    (hsdk : cwl.logsClient.getLogEvents
      (cwl.getLogEventsArgs executable run lastSeen) = Except.error e) :
    cwl.Logs executable run lastSeen =
      ("", none, some (Err.missingResource e.errString)) ∧
    (∀ msg cause, Err.missingResource e.errString ≠ Err.wrapped msg cause) ∧
    ∀ (cwl2 : ECSCloudWatchLogsClient) (ex2 : Executable) (run2 : Run)
      (w : ResponseWriter),
      cwl2.LogsText ex2 run2 w =
        some (Err.errorf "ECSCloudWatchLogsClient does not support LogsText method.") ∧
      cwl2.LogsText ex2 run2 w ≠ none := by
  refine ⟨?_, fun msg cause => by simp, fun cwl2 ex2 run2 w => ⟨rfl, by simp [ECSCloudWatchLogsClient.LogsText]⟩⟩
  simp only [ECSCloudWatchLogsClient.Logs]
  rw [hsdk]
  simp [haws, hcode]

/-- A resource-not-found AWS error and a client whose fetch always fails
with it. -/
def rnfErr : AwsErr := ⟨true, "ResourceNotFoundException", false, "stream missing"⟩

/-- A client whose fetch always fails with the resource-not-found error. -/
def cwlRnf : ECSCloudWatchLogsClient := ⟨30, "ns", "p", ⟨fun _ => Except.error rnfErr⟩⟩

/-- Witness for C8 at the resource-not-found fixture. -/
theorem logs_missing_resource_and_logsText_unsupported_witness :
    cwlRnf.Logs execC runTask none =
      ("", none, some (Err.missingResource rnfErr.errString)) ∧
    (∀ msg cause, Err.missingResource rnfErr.errString ≠ Err.wrapped msg cause) ∧
    ∀ (cwl2 : ECSCloudWatchLogsClient) (ex2 : Executable) (run2 : Run)
      (w : ResponseWriter),
      cwl2.LogsText ex2 run2 w =
        some (Err.errorf "ECSCloudWatchLogsClient does not support LogsText method.") ∧
      cwl2.LogsText ex2 run2 w ≠ none :=
  logs_missing_resource_and_logsText_unsupported cwlRnf execC runTask none
    rnfErr rfl rfl rfl

/-- C9: namespace provisioning is idempotent: when the store already holds a
log group named exactly the configured namespace,
`createNamespaceIfNotExists` succeeds without creating anything, and two
sequential calls perform creation at most once with the second a no-op. -/
theorem namespace_provisioning_idempotent
    (cwl : ECSCloudWatchLogsClient) (st : CWStore)
    (h : cwl.logNamespace ∈ st.groups) :
    cwl.createNamespaceIfNotExists st = (st, false) ∧
    ∀ st0 : CWStore,
      cwl.createNamespaceIfNotExists (cwl.createNamespaceIfNotExists st0).1 =
        ((cwl.createNamespaceIfNotExists st0).1, false) := by
  constructor
  · unfold ECSCloudWatchLogsClient.createNamespaceIfNotExists
    rw [if_pos (namespaceExists_of_mem cwl st h)]
  · intro st0
    by_cases hx : cwl.namespaceExists st0 = true
    · unfold ECSCloudWatchLogsClient.createNamespaceIfNotExists
      rw [if_pos hx, if_pos hx]
    · have hmem : cwl.logNamespace ∈ (cwl.createNamespace st0).groups := by
        simp [ECSCloudWatchLogsClient.createNamespace]
      unfold ECSCloudWatchLogsClient.createNamespaceIfNotExists
      rw [if_neg hx]
      rw [if_pos (namespaceExists_of_mem cwl _ hmem)]

/-- Witness for C9 at a store already holding the namespace "ns". -/
theorem namespace_provisioning_idempotent_witness :
    cwlP.createNamespaceIfNotExists ⟨["ns"], []⟩ = (⟨["ns"], []⟩, false) ∧
    ∀ st0 : CWStore,
      cwlP.createNamespaceIfNotExists (cwlP.createNamespaceIfNotExists st0).1 =
        ((cwlP.createNamespaceIfNotExists st0).1, false) :=
  namespace_provisioning_idempotent cwlP ⟨["ns"], []⟩ (by decide)

end Flotilla
